import Mathlib

/-!
Verification development for clox-rs, a single-pass Lox compiler and
stack-based bytecode VM written in Rust. The Rust sources under src/lox
(value.rs, object.rs, chunk.rs, scanner.rs, compiler.rs, vm.rs) are
shallowly embedded below: pure functions become Lean functions, the
mutable compiler and VM state becomes explicit state passing, loops
become fuel-indexed recursion, and every fallible or aborting operation
(Vec indexing, Option unwrap, as_number on a non-number, an invalid
opcode byte) is made explicit with Option or a panicked flag.

Modelling conventions, stated once:
  - Rust f64 is modelled as an exact rational (Rat). Every claim checked
    here computes only with small integers, on which IEEE double
    arithmetic is exact, so the embedding and the Rust code agree on all
    inputs the theorems touch.
  - Rust String and str slices are modelled as List Char. The scanner of
    the source steps by chars but slices by byte offsets; the two agree
    on ASCII input, and all inputs used here are ASCII.
  - A Rust process abort (a failed index, unwrap or expect) is modelled
    by an explicit panicked outcome carrying the message; after it, no
    further state change happens, matching the aborted process.
  - The match on opcodes in vm.rs run has no arm for Pop, GetGlobal,
    DefineGlobal and SetGlobal (the Rust match is not exhaustive): there
    is no source code to embed for these four instructions, so executing
    one of them is modelled as a distinct stuck outcome.
  - The debug printing macros in vm.rs are compiled out unless
    debug_assertions is set; the embedding models the release build, in
    which they print nothing. The call chunk.print_codes() at the top of
    run is not a macro and not conditional; it is embedded faithfully.
-/

/- The arithmetic on Rat is irreducible by default, which would keep the
closed-program theorems below from evaluating; restore the ordinary
reducibility so decide can run the embedded interpreter. -/
set_option allowUnsafeReducibility true in
attribute [semireducible] Rat.add

set_option allowUnsafeReducibility true in
attribute [semireducible] Rat.sub

set_option allowUnsafeReducibility true in
attribute [semireducible] Rat.mul

set_option allowUnsafeReducibility true in
attribute [semireducible] Rat.inv

set_option allowUnsafeReducibility true in
attribute [semireducible] Rat.div

namespace Clox

/-- MAX_STRING_LITERAL from object.rs: literal ids are below 255. -/
def MAX_STRING_LITERAL : Nat := 255

/-- StringId from object.rs is a newtype over u64; modelled as Nat. -/
abbrev StringId := Nat

/-- StringId.is_literal from object.rs. -/
def stringIdIsLiteral (id : StringId) : Bool :=
  id < MAX_STRING_LITERAL

/-- Alias so the Bool constructor of Value can state its field type. -/
abbrev Boolean := Bool

/-- Value from value.rs. Number carries a rational standing for f64. -/
inductive Value
  | Number (n : Rat)
  | Bool (b : Boolean)
  | Nil
  | String (id : StringId)
  deriving DecidableEq, Repr

/-- Value::is_number from value.rs. -/
def Value.is_number : Value → Boolean
  | .Number _ => true
  | _ => false

/-- Value::as_number from value.rs panics on a non-number; Option here. -/
def Value.as_number : Value → Option Rat
  | .Number n => some n
  | _ => none

/-- ValueArray from value.rs. -/
structure ValueArray where
  values : List Value
  deriving DecidableEq, Repr

def ValueArray.new : ValueArray := ⟨[]⟩

/-- ValueArray::write from value.rs. -/
def ValueArray.write (a : ValueArray) (v : Value) : ValueArray :=
  ⟨a.values ++ [v]⟩

/-- StringData from object.rs; the Rust field end is named stop here. -/
structure StringData where
  start : Nat
  stop : Nat
  deriving DecidableEq, Repr

/-- Slice s[a..b] of a char buffer, as used all over object.rs. -/
def strSlice (s : List Char) (a b : Nat) : List Char :=
  (s.drop a).take (b - a)

/-- StringLiteralStorage from object.rs, the per-chunk literal pool. -/
structure StringLiteralStorage where
  string : List Char
  data : List StringData
  next_id : Nat
  deriving DecidableEq, Repr

namespace StringLiteralStorage

def new : StringLiteralStorage := ⟨[], [], 0⟩

/-- Loop body of StringLiteralStorage::exist_string from object.rs. -/
def exist_aux (buf : List Char) (s : List Char) :
    List StringData → Nat → Option StringId
  | [], _ => none
  | d :: rest, i =>
    if strSlice buf d.start d.stop = s then some i
    else exist_aux buf s rest (i + 1)

/-- StringLiteralStorage::exist_string from object.rs. -/
def exist_string (st : StringLiteralStorage) (s : List Char) :
    Option StringId :=
  exist_aux st.string s st.data 0

/-- StringLiteralStorage::is_max_string from object.rs. -/
def is_max_string (st : StringLiteralStorage) : Bool :=
  st.next_id = MAX_STRING_LITERAL

/-- StringLiteralStorage::add_string from object.rs. -/
def add_string (st : StringLiteralStorage) (s : List Char) :
    Except String StringId × StringLiteralStorage :=
  if st.is_max_string then
    (.error "Too many string literals", st)
  else
    let start := st.string.length
    let buf := st.string ++ s
    (.ok st.next_id,
      { string := buf,
        data := st.data ++ [⟨start, buf.length⟩],
        next_id := st.next_id + 1 })

/-- StringLiteralStorage::get_string from object.rs; the Rust index
into data panics when the id is out of range, hence Option. -/
def get_string (st : StringLiteralStorage) (id : StringId) :
    Option (List Char) :=
  (st.data.get? id).map fun d => strSlice st.string d.start d.stop

end StringLiteralStorage

/-- DynamicStringStorage from object.rs; the HashMap keyed by u64 id is
modelled as an association list, insertion at the front. -/
structure DynamicStringStorage where
  string : List Char
  data : List (Nat × StringData)
  next_id : Nat
  deriving DecidableEq, Repr

namespace DynamicStringStorage

def new : DynamicStringStorage := ⟨[], [], MAX_STRING_LITERAL⟩

/-- u64::MAX, the overflow guard in DynamicStringStorage::add_string. -/
def U64_MAX : Nat := 2 ^ 64 - 1

/-- DynamicStringStorage::add_string from object.rs. -/
def add_string (st : DynamicStringStorage) (s : List Char) :
    Except String StringId × DynamicStringStorage :=
  if st.next_id = U64_MAX then
    (.error "Too many string literals", st)
  else
    let start := st.string.length
    let buf := st.string ++ s
    (.ok st.next_id,
      { string := buf,
        data := (st.next_id, ⟨start, buf.length⟩) :: st.data,
        next_id := st.next_id + 1 })

/-- DynamicStringStorage::get_string from object.rs; the unwrap on a
missing key panics, hence Option. -/
def get_string (st : DynamicStringStorage) (id : StringId) :
    Option (List Char) :=
  (st.data.lookup id).map fun d => strSlice st.string d.start d.stop

end DynamicStringStorage

/-- OpCode from chunk.rs, all twenty variants in declaration order. -/
inductive OpCode
  | Constant
  | StringLiteral
  | Nil
  | True
  | False
  | Pop
  | GetGlobal
  | DefineGlobal
  | SetGlobal
  | Equal
  | Greater
  | Less
  | Add
  | Subtract
  | Multiply
  | Divide
  | Not
  | Negate
  | Print
  | Return
  deriving DecidableEq, Repr

/-- The discriminant of an opcode, what the Rust cast op as u8 yields. -/
def OpCode.toNat : OpCode → Nat
  | .Constant => 0
  | .StringLiteral => 1
  | .Nil => 2
  | .True => 3
  | .False => 4
  | .Pop => 5
  | .GetGlobal => 6
  | .DefineGlobal => 7
  | .SetGlobal => 8
  | .Equal => 9
  | .Greater => 10
  | .Less => 11
  | .Add => 12
  | .Subtract => 13
  | .Multiply => 14
  | .Divide => 15
  | .Not => 16
  | .Negate => 17
  | .Print => 18
  | .Return => 19

/-- OpCode::from_u8 from chunk.rs; the Invalid opcode panic on any byte
outside 0..=19 is modelled as none. -/
def OpCode.from_u8 : Nat → Option OpCode
  | 0 => some .Constant
  | 1 => some .StringLiteral
  | 2 => some .Nil
  | 3 => some .True
  | 4 => some .False
  | 5 => some .Pop
  | 6 => some .GetGlobal
  | 7 => some .DefineGlobal
  | 8 => some .SetGlobal
  | 9 => some .Equal
  | 10 => some .Greater
  | 11 => some .Less
  | 12 => some .Add
  | 13 => some .Subtract
  | 14 => some .Multiply
  | 15 => some .Divide
  | 16 => some .Not
  | 17 => some .Negate
  | 18 => some .Print
  | 19 => some .Return
  | _ => none

/-- Chunk from chunk.rs. -/
structure Chunk where
  code : List Nat
  lines : List Nat
  constants : ValueArray
  string_literals : StringLiteralStorage
  deriving DecidableEq, Repr

namespace Chunk

def new : Chunk :=
  ⟨[], [], ValueArray.new, StringLiteralStorage.new⟩

/-- Chunk::write from chunk.rs: append opcode byte and its line. -/
def write (c : Chunk) (op : OpCode) (line : Nat) : Chunk :=
  { c with code := c.code ++ [op.toNat], lines := c.lines ++ [line] }

/-- Chunk::write_u8 from chunk.rs: append a raw operand byte and line. -/
def write_u8 (c : Chunk) (v : Nat) (line : Nat) : Chunk :=
  { c with code := c.code ++ [v], lines := c.lines ++ [line] }

/-- Chunk::add_constant from chunk.rs. -/
def add_constant (c : Chunk) (v : Value) : Except String Nat × Chunk :=
  if c.constants.values.length ≥ 255 then
    (.error "Too many constants in one chunk", c)
  else
    (.ok c.constants.values.length,
      { c with constants := c.constants.write v })

/-- Chunk::write_string_literal_id from chunk.rs. -/
def write_string_literal_id (c : Chunk) (id : StringId) (line : Nat) :
    Except String Unit × Chunk :=
  if stringIdIsLiteral id then
    (.ok (),
      { c with code := c.code ++ [id], lines := c.lines ++ [line] })
  else
    (.error "Invalid string literal id", c)

/-- Chunk::add_or_retrieve_string_literal from chunk.rs. -/
def add_or_retrieve_string_literal (c : Chunk) (s : List Char) :
    Except String StringId × Chunk :=
  match c.string_literals.exist_string s with
  | some id => (.ok id, c)
  | none =>
    let (res, st) := c.string_literals.add_string s
    (res, { c with string_literals := st })

/-- Chunk::byte from chunk.rs; the Vec index panics out of range. -/
def byte (c : Chunk) (offset : Nat) : Option Nat :=
  c.code.get? offset

/-- Chunk::read_constant from chunk.rs. -/
def read_constant (c : Chunk) (offset : Nat) : Option Value :=
  c.byte offset >>= fun idx => c.constants.values.get? idx

/-- Chunk::read_string_literal from chunk.rs: always the literal pool,
whatever the id. -/
def read_string_literal (c : Chunk) (id : StringId) :
    Option (List Char) :=
  c.string_literals.get_string id

/-- Chunk::get_line from chunk.rs. -/
def get_line (c : Chunk) (offset : Nat) : Option Nat :=
  c.lines.get? offset

end Chunk

/-- TokenType from scanner.rs. -/
inductive TokenType
  | LeftParen | RightParen | LeftBrace | RightBrace
  | Comma | Dot | Minus | Plus | Semicolon | Slash | Star
  | Bang | BangEqual
  | Equal | EqualEqual
  | Greater | GreaterEqual
  | Less | LessEqual
  | Identifier | String | Number
  | And | Class | Else | False | Fun | For | If | Nil | Or
  | Print | Return | Super | This | True | Var | While
  | Error | EOF
  deriving DecidableEq, Repr

/-- Token from scanner.rs. -/
structure Token where
  token_type : TokenType
  start : Nat
  length : Nat
  line : Nat
  deriving DecidableEq, Repr

/-- ErrorToken from scanner.rs. -/
structure ErrorToken where
  message : String
  line : Nat
  deriving DecidableEq, Repr

/-- ScannerPointer from scanner.rs. -/
structure ScannerPointer where
  start : Nat
  current : Nat
  deriving DecidableEq, Repr

namespace Scanner

def ScannerPointer.new : ScannerPointer := ⟨0, 0⟩

/-- make_token from scanner.rs. -/
def make_token (tt : TokenType) (p : ScannerPointer) (line : Nat) :
    Token :=
  ⟨tt, p.start, p.current - p.start, line⟩

/-- make_error_token from scanner.rs. -/
def make_error_token (message : String) (line : Nat) : ErrorToken :=
  ⟨message, line⟩

/-- is_digit from scanner.rs. -/
def is_digit (c : Char) : Bool :=
  '0' ≤ c && c ≤ '9'

/-- is_alpha from scanner.rs. -/
def is_alpha (c : Char) : Bool :=
  ('a' ≤ c && c ≤ 'z') || ('A' ≤ c && c ≤ 'Z') || c = '_'

/-- is_alphanumeric from scanner.rs. -/
def is_alphanumeric (c : Char) : Bool :=
  is_alpha c || is_digit c

/-- is_at_end from scanner.rs. -/
def is_at_end (source : List Char) (p : ScannerPointer) : Bool :=
  source.length ≤ p.current

/-- advance from scanner.rs: step the cursor, return the passed char.
Every Rust call site first checks is_at_end or peeks a real char, so
the unwrap there never fires; the default char is never produced. -/
def advance (source : List Char) (p : ScannerPointer) :
    Char × ScannerPointer :=
  (source.getD p.current '\x00', { p with current := p.current + 1 })

/-- peek from scanner.rs. -/
def peek (source : List Char) (p : ScannerPointer) : Char :=
  if is_at_end source p then '\x00' else source.getD p.current '\x00'

/-- peek_next from scanner.rs. -/
def peek_next (source : List Char) (p : ScannerPointer) : Char :=
  if p.current + 1 ≥ source.length then '\x00'
  else source.getD (p.current + 1) '\x00'

/-- match_char from scanner.rs. -/
def match_char (source : List Char) (p : ScannerPointer)
    (expected : Char) : Bool × ScannerPointer :=
  if is_at_end source p then (false, p)
  else if source.getD p.current '\x00' ≠ expected then (false, p)
  else (true, { p with current := p.current + 1 })

/-- Inner loop of the line-comment case of skip_whitespace. -/
def skip_comment (source : List Char) :
    Nat → ScannerPointer → ScannerPointer
  | 0, p => p
  | fuel + 1, p =>
    if peek source p ≠ '\n' && !is_at_end source p then
      skip_comment source fuel (advance source p).2
    else p

/-- skip_whitespace from scanner.rs, fuel-indexed. -/
def skip_whitespace (source : List Char) :
    Nat → ScannerPointer → Nat → ScannerPointer × Nat
  | 0, p, line => (p, line)
  | fuel + 1, p, line =>
    let c := peek source p
    if c = ' ' || c = '\r' || c = '\t' then
      skip_whitespace source fuel (advance source p).2 line
    else if c = '\n' then
      skip_whitespace source fuel (advance source p).2 (line + 1)
    else if c = '/' then
      if peek_next source p = '/' then
        skip_whitespace source fuel
          (skip_comment source (source.length + 1) p) line
      else (p, line)
    else (p, line)

/-- Scanning loop of identifier from scanner.rs. -/
def ident_loop (source : List Char) :
    Nat → ScannerPointer → ScannerPointer
  | 0, p => p
  | fuel + 1, p =>
    if is_alphanumeric (peek source p) then
      ident_loop source fuel (advance source p).2
    else p

/-- Keyword table of identifier from scanner.rs. -/
def keyword_type (text : List Char) : TokenType :=
  if text = "and".data then .And
  else if text = "class".data then .Class
  else if text = "else".data then .Else
  else if text = "false".data then .False
  else if text = "for".data then .For
  else if text = "fun".data then .Fun
  else if text = "if".data then .If
  else if text = "nil".data then .Nil
  else if text = "or".data then .Or
  else if text = "print".data then .Print
  else if text = "return".data then .Return
  else if text = "super".data then .Super
  else if text = "this".data then .This
  else if text = "true".data then .True
  else if text = "var".data then .Var
  else if text = "while".data then .While
  else .Identifier

/-- identifier from scanner.rs. -/
def identifier (source : List Char) (p : ScannerPointer) (line : Nat) :
    Token × ScannerPointer :=
  let p := ident_loop source (source.length + 1) p
  let text := strSlice source p.start p.current
  (make_token (keyword_type text) p line, p)

/-- Digit-scanning loop of number from scanner.rs. -/
def digit_loop (source : List Char) :
    Nat → ScannerPointer → ScannerPointer
  | 0, p => p
  | fuel + 1, p =>
    if is_digit (peek source p) then
      digit_loop source fuel (advance source p).2
    else p

/-- number from scanner.rs. -/
def number (source : List Char) (p : ScannerPointer) (line : Nat) :
    Token × ScannerPointer :=
  let p := digit_loop source (source.length + 1) p
  let p :=
    if peek source p = '.' && is_digit (peek_next source p) then
      digit_loop source (source.length + 1) (advance source p).2
    else p
  (make_token .Number p line, p)

/-- Body loop of string from scanner.rs: consume up to the closing
quote, counting newlines. -/
def string_loop (source : List Char) :
    Nat → ScannerPointer → Nat → ScannerPointer × Nat
  | 0, p, line => (p, line)
  | fuel + 1, p, line =>
    if peek source p ≠ '"' && !is_at_end source p then
      let line := if peek source p = '\n' then line + 1 else line
      string_loop source fuel (advance source p).2 line
    else (p, line)

/-- string from scanner.rs. -/
def string (source : List Char) (p : ScannerPointer) (line : Nat) :
    (Except ErrorToken Token) × ScannerPointer × Nat :=
  let (p, line) := string_loop source (source.length + 1) p line
  if is_at_end source p then
    (.error (make_error_token "Unterminated string." line), p, line)
  else
    let p := (advance source p).2
    (.ok (make_token .String p line), p, line)

/-- scan_token from scanner.rs. -/
def scan_token (source : List Char) (p : ScannerPointer) (line : Nat) :
    (Except ErrorToken Token) × ScannerPointer × Nat :=
  let (p, line) := skip_whitespace source (source.length + 1) p line
  let p := { p with start := p.current }
  if is_at_end source p then
    (.ok (make_token .EOF p line), p, line)
  else
    let (c, p) := advance source p
    if is_alpha c then
      let (t, p) := identifier source p line
      (.ok t, p, line)
    else if is_digit c then
      let (t, p) := number source p line
      (.ok t, p, line)
    else if c = '(' then (.ok (make_token .LeftParen p line), p, line)
    else if c = ')' then (.ok (make_token .RightParen p line), p, line)
    else if c = '{' then (.ok (make_token .LeftBrace p line), p, line)
    else if c = '}' then (.ok (make_token .RightBrace p line), p, line)
    else if c = ';' then (.ok (make_token .Semicolon p line), p, line)
    else if c = ',' then (.ok (make_token .Comma p line), p, line)
    else if c = '.' then (.ok (make_token .Dot p line), p, line)
    else if c = '-' then (.ok (make_token .Minus p line), p, line)
    else if c = '+' then (.ok (make_token .Plus p line), p, line)
    else if c = '/' then (.ok (make_token .Slash p line), p, line)
    else if c = '*' then (.ok (make_token .Star p line), p, line)
    else if c = '!' then
      let (m, p) := match_char source p '='
      if m then (.ok (make_token .BangEqual p line), p, line)
      else (.ok (make_token .Bang p line), p, line)
    else if c = '=' then
      let (m, p) := match_char source p '='
      if m then (.ok (make_token .EqualEqual p line), p, line)
      else (.ok (make_token .Equal p line), p, line)
    else if c = '<' then
      let (m, p) := match_char source p '='
      if m then (.ok (make_token .LessEqual p line), p, line)
      else (.ok (make_token .Less p line), p, line)
    else if c = '>' then
      let (m, p) := match_char source p '='
      if m then (.ok (make_token .GreaterEqual p line), p, line)
      else (.ok (make_token .Greater p line), p, line)
    else if c = '"' then string source p line
    else (.error (make_error_token "Unexpected character." line), p, line)

end Scanner

namespace Compiler

/-- Numeric value of a digit run, helper for parse_f64. -/
def digits_value (l : List Char) : Nat :=
  l.foldl (fun a c => a * 10 + (c.toNat - '0'.toNat)) 0

/-- The str::parse f64 call in the number parse function of
compiler.rs, applied only to lexemes of shape digits or
digits dot digits produced by the scanner; exact rational result. -/
def parse_f64 (l : List Char) : Rat :=
  let intPart := l.takeWhile (fun c => c ≠ '.')
  let fracPart := (l.dropWhile (fun c => c ≠ '.')).drop 1
  mkRat (digits_value intPart * 10 ^ fracPart.length + digits_value fracPart)
    (10 ^ fracPart.length)

/-- Precedence from compiler.rs. -/
inductive Precedence
  | None | Assignment | Or | And | Equality | Comparison
  | Term | Factor | Unary | Call | Primary
  deriving DecidableEq, Repr

/-- Rank of a precedence, realising the derived PartialOrd of the Rust
enum, which orders by declaration position. -/
def Precedence.rank : Precedence → Nat
  | .None => 0
  | .Assignment => 1
  | .Or => 2
  | .And => 3
  | .Equality => 4
  | .Comparison => 5
  | .Term => 6
  | .Factor => 7
  | .Unary => 8
  | .Call => 9
  | .Primary => 10

/-- Precedence::next_higher_precedence from compiler.rs; the panic on
Primary is modelled as none. -/
def Precedence.next_higher_precedence : Precedence → Option Precedence
  | .None => some .Assignment
  | .Assignment => some .Or
  | .Or => some .And
  | .And => some .Equality
  | .Equality => some .Comparison
  | .Comparison => some .Term
  | .Term => some .Factor
  | .Factor => some .Unary
  | .Unary => some .Call
  | .Call => some .Primary
  | .Primary => none

/-- Names for the parse functions stored in the rule table of
compiler.rs; the Rust table stores function pointers, defunctionalised
here so the dispatch is first-order. -/
inductive FnName
  | grouping | unary | binary | variableF | string | number | literal
  deriving DecidableEq, Repr

/-- ParseRule from compiler.rs. The Rust fields named after the two
rule kinds are called prefixFn and infixFn here. -/
structure ParseRule where
  prefixFn : Option FnName
  infixFn : Option FnName
  precedence : Precedence
  deriving DecidableEq, Repr

/-- ParseRule::query from compiler.rs, the whole rule table. -/
def ParseRule.query : TokenType → ParseRule
  | .LeftParen => ⟨some .grouping, none, .None⟩
  | .RightParen => ⟨none, none, .None⟩
  | .LeftBrace => ⟨none, none, .None⟩
  | .RightBrace => ⟨none, none, .None⟩
  | .Comma => ⟨none, none, .None⟩
  | .Dot => ⟨none, none, .None⟩
  | .Minus => ⟨some .unary, some .binary, .Term⟩
  | .Plus => ⟨none, some .binary, .Term⟩
  | .Semicolon => ⟨none, none, .None⟩
  | .Slash => ⟨none, some .binary, .Factor⟩
  | .Star => ⟨none, some .binary, .Factor⟩
  | .Bang => ⟨some .unary, none, .None⟩
  | .BangEqual => ⟨none, some .binary, .Equality⟩
  | .Equal => ⟨none, none, .None⟩
  | .EqualEqual => ⟨none, some .binary, .Equality⟩
  | .Greater => ⟨none, some .binary, .Comparison⟩
  | .GreaterEqual => ⟨none, some .binary, .Comparison⟩
  | .Less => ⟨none, some .binary, .Comparison⟩
  | .LessEqual => ⟨none, some .binary, .Comparison⟩
  | .Identifier => ⟨some .variableF, none, .None⟩
  | .String => ⟨some .string, none, .None⟩
  | .Number => ⟨some .number, none, .None⟩
  | .And => ⟨none, none, .None⟩
  | .Class => ⟨none, none, .None⟩
  | .Else => ⟨none, none, .None⟩
  | .False => ⟨some .literal, none, .None⟩
  | .Fun => ⟨none, none, .None⟩
  | .For => ⟨none, none, .None⟩
  | .If => ⟨none, none, .None⟩
  | .Nil => ⟨some .literal, none, .None⟩
  | .Or => ⟨none, none, .None⟩
  | .Print => ⟨none, none, .None⟩
  | .Return => ⟨none, none, .None⟩
  | .Super => ⟨none, none, .None⟩
  | .This => ⟨none, none, .None⟩
  | .True => ⟨some .literal, none, .None⟩
  | .Var => ⟨none, none, .None⟩
  | .While => ⟨none, none, .None⟩
  | .Error => ⟨none, none, .None⟩
  | .EOF => ⟨none, none, .None⟩

/-- ParserPointer from compiler.rs. -/
structure ParserPointer where
  current : Token
  previous : Token
  deriving DecidableEq, Repr

/-- ParserState from compiler.rs. -/
structure ParserState where
  panic_mode : Bool
  had_error : Bool
  deriving DecidableEq, Repr

/-- CompilerContext from compiler.rs. -/
structure CompilerContext where
  sp : ScannerPointer
  pp : ParserPointer
  ps : ParserState
  can_assign : Bool
  line : Nat
  deriving DecidableEq, Repr

/-- Whole compile-time state threaded through the embedded compiler:
the chunk being built plus the CompilerContext, with three pieces of
bookkeeping the Rust program carries implicitly: out_of_fuel marks that
the fuel bound was hit, panicked that a Rust process abort happened
(an expect or an explicit panic), and cerrors the stderr diagnostics
written by error_at. -/
structure CSt where
  chunk : Chunk
  ctx : CompilerContext
  out_of_fuel : Bool
  panicked : Bool
  cerrors : List (Nat × String)
  deriving DecidableEq, Repr

/-- error_at from compiler.rs. -/
def error_at (line : Nat) (message : String) (st : CSt) : CSt :=
  if st.ctx.ps.panic_mode then st
  else
    { st with
      ctx := { st.ctx with ps := ⟨true, true⟩ },
      cerrors := st.cerrors ++ [(line, message)] }

/-- Scan loop of advance from compiler.rs: re-drive the scanner while
it reports errors, recording each through error_at. -/
def advance_loop (source : List Char) :
    Nat → CSt → CSt
  | 0, st => { st with out_of_fuel := true }
  | fuel + 1, st =>
    let (res, sp, line) := Scanner.scan_token source st.ctx.sp st.ctx.line
    let st := { st with ctx := { st.ctx with sp := sp, line := line } }
    match res with
    | .ok token =>
      { st with ctx := { st.ctx with pp := { st.ctx.pp with current := token } } }
    | .error err =>
      advance_loop source fuel (error_at err.line err.message st)

/-- advance from compiler.rs. -/
def advance (source : List Char) (st : CSt) : CSt :=
  let st :=
    { st with
      ctx := { st.ctx with pp := { st.ctx.pp with previous := st.ctx.pp.current } } }
  advance_loop source (source.length + 1) st

/-- check from compiler.rs. -/
def check (tt : TokenType) (pp : ParserPointer) : Bool :=
  pp.current.token_type = tt

/-- match_token from compiler.rs. -/
def match_token (tt : TokenType) (source : List Char) (st : CSt) :
    Bool × CSt :=
  if check tt st.ctx.pp then (true, advance source st)
  else (false, st)

/-- consume from compiler.rs. -/
def consume (tt : TokenType) (message : String) (source : List Char)
    (st : CSt) : CSt :=
  if st.ctx.pp.current.token_type = tt then advance source st
  else error_at st.ctx.line message st

/-- synchronize from compiler.rs, fuel-indexed. -/
def synchronize (source : List Char) :
    Nat → CSt → CSt
  | 0, st => { st with out_of_fuel := true }
  | fuel + 1, st =>
    if st.ctx.pp.current.token_type = .EOF then st
    else if st.ctx.pp.previous.token_type = .Semicolon then st
    else
      match st.ctx.pp.current.token_type with
      | .Class | .Fun | .Var | .For | .If | .While | .Print | .Return =>
        st
      | _ => synchronize source fuel (advance source st)

/-- identifier_constant from compiler.rs: emit OP_STRING_LITERAL,
intern the previous lexeme, write its id byte. The expect on the id
write is a Rust abort, modelled by the panicked flag. -/
def identifier_constant (source : List Char) (st : CSt) :
    Except String StringId × CSt :=
  let name :=
    strSlice source st.ctx.pp.previous.start
      (st.ctx.pp.previous.start + st.ctx.pp.previous.length)
  let st := { st with chunk := st.chunk.write .StringLiteral st.ctx.pp.previous.line }
  let (idx, ch) := st.chunk.add_or_retrieve_string_literal name
  let st := { st with chunk := ch }
  match idx with
  | .ok idx =>
    let (res, ch) := st.chunk.write_string_literal_id idx st.ctx.pp.previous.line
    let st := { st with chunk := ch }
    match res with
    | .ok _ => (.ok idx, st)
    | .error _ => (.ok idx, { st with panicked := true })
  | .error msg =>
    (.error ("Failed to add string literal: " ++ msg), st)

/-- define_variable from compiler.rs. -/
def define_variable (global : StringId) (st : CSt) : CSt :=
  let st := { st with chunk := st.chunk.write .DefineGlobal st.ctx.pp.previous.line }
  { st with chunk := st.chunk.write_u8 (global % 256) st.ctx.pp.previous.line }

/-- Labels for the mutually recursive procedures of compiler.rs. The
Rust functions recurse into one another with no decreasing argument;
the embedding ties the knot with the fuel-indexed step function below,
which dispatches on this label and hands each procedure the recursive
entry point k at one less fuel. -/
inductive Call
  | top | decl | varDecl | stmt | printStmt | exprStmt | expr
  | parsePrec (p : Precedence)
  | infixLoop (p : Precedence)
  | fn (f : FnName)
  deriving DecidableEq, Repr

/-- Main loop of compile from compiler.rs: until the EOF token is
matched, parse one declaration. -/
def compile_loop (source : List Char) (k : Call → CSt → CSt)
    (st : CSt) : CSt :=
  let (b, st) := match_token .EOF source st
  if b then st
  else k .top (k .decl st)

/-- declaration from compiler.rs. -/
def declaration (source : List Char) (k : Call → CSt → CSt)
    (st : CSt) : CSt :=
  let st :=
    match st.ctx.pp.current.token_type with
    | .Var => k .varDecl st
    | _ => k .stmt st
  if st.ctx.ps.panic_mode then
    synchronize source (source.length + 1) st
  else st

/-- var_declaration from compiler.rs. -/
def var_declaration (source : List Char) (k : Call → CSt → CSt)
    (st : CSt) : CSt :=
  let st := advance source st
  let st := consume .Identifier "Expect variable name." source st
  let (global, st) := identifier_constant source st
  match global with
  | .error msg => error_at st.ctx.pp.previous.line msg st
  | .ok global =>
    let (b, st) := match_token .Equal source st
    let st :=
      if b then k .expr st
      else { st with chunk := st.chunk.write .Nil st.ctx.pp.previous.line }
    let st :=
      consume .Semicolon "Expect ';' after variable declaration."
        source st
    define_variable global st

/-- statement from compiler.rs. -/
def statement (source : List Char) (k : Call → CSt → CSt)
    (st : CSt) : CSt :=
  let (b, st) := match_token .Print source st
  if b then k .printStmt st
  else k .exprStmt st

/-- print_statement from compiler.rs. -/
def print_statement (source : List Char) (k : Call → CSt → CSt)
    (st : CSt) : CSt :=
  let st := k .expr st
  let st := consume .Semicolon "Expect ';' after value." source st
  { st with chunk := st.chunk.write .Print st.ctx.pp.previous.line }

/-- expression_statement from compiler.rs. -/
def expression_statement (source : List Char) (k : Call → CSt → CSt)
    (st : CSt) : CSt :=
  let st := k .expr st
  let st := consume .Semicolon "Expect ';' after expression." source st
  { st with chunk := st.chunk.write .Pop st.ctx.pp.previous.line }

/-- expression from compiler.rs. -/
def expression (k : Call → CSt → CSt) (st : CSt) : CSt :=
  k (.parsePrec .Assignment) st

/-- parse_precedence from compiler.rs: advance, run the prefix rule of
the previous token or report Expect expression, run the infix loop,
then reject a leftover assignment target. -/
def parse_precedence (source : List Char) (k : Call → CSt → CSt)
    (p : Precedence) (st : CSt) : CSt :=
  let st := advance source st
  match (ParseRule.query st.ctx.pp.previous.token_type).prefixFn with
  | none => error_at st.ctx.pp.previous.line "Expect expression." st
  | some f =>
    let st :=
      { st with
        ctx := { st.ctx with can_assign := p.rank ≤ Precedence.Assignment.rank } }
    let st := k (.fn f) st
    let st := k (.infixLoop p) st
    if st.ctx.can_assign then
      let (b, st) := match_token .Equal source st
      if b then
        error_at st.ctx.pp.previous.line "Invalid assignment target." st
      else st
    else st

/-- The while loop of parse_precedence from compiler.rs: as long as
the current token has an infix rule of at least the precedence, apply
it; the unwrap on a missing infix function is a Rust abort. -/
def infix_loop (source : List Char) (k : Call → CSt → CSt)
    (p : Precedence) (st : CSt) : CSt :=
  if p.rank ≤ (ParseRule.query st.ctx.pp.current.token_type).precedence.rank then
    let st := advance source st
    match (ParseRule.query st.ctx.pp.previous.token_type).infixFn with
    | none => { st with panicked := true }
    | some f =>
      let st := k (.fn f) st
      k (.infixLoop p) st
  else st

/-- grouping from compiler.rs. -/
def grouping (source : List Char) (k : Call → CSt → CSt)
    (st : CSt) : CSt :=
  let st := k .expr st
  consume .RightParen "Expect ')' after expression." source st

/-- unary from compiler.rs; the catch-all panic is a Rust abort. -/
def unary (source : List Char) (k : Call → CSt → CSt)
    (st : CSt) : CSt :=
  let operator_type := st.ctx.pp.previous.token_type
  let st := k (.parsePrec .Unary) st
  match operator_type with
  | .Bang => { st with chunk := st.chunk.write .Not st.ctx.pp.previous.line }
  | .Minus => { st with chunk := st.chunk.write .Negate st.ctx.pp.previous.line }
  | _ => { st with panicked := true }

/-- binary from compiler.rs; next_higher_precedence on Primary and an
unknown operator both panic in Rust, modelled by the panicked flag. -/
def binary (source : List Char) (k : Call → CSt → CSt)
    (st : CSt) : CSt :=
  let operator_type := st.ctx.pp.previous.token_type
  let rule := ParseRule.query operator_type
  match rule.precedence.next_higher_precedence with
  | none => { st with panicked := true }
  | some precedence =>
    let st := k (.parsePrec precedence) st
    let wr := fun (op : OpCode) (s : CSt) =>
      { s with chunk := s.chunk.write op s.ctx.pp.previous.line }
    match operator_type with
    | .BangEqual => wr .Not (wr .Equal st)
    | .EqualEqual => wr .Equal st
    | .Greater => wr .Greater st
    | .GreaterEqual => wr .Not (wr .Less st)
    | .Less => wr .Less st
    | .LessEqual => wr .Not (wr .Greater st)
    | .Plus => wr .Add st
    | .Minus => wr .Subtract st
    | .Star => wr .Multiply st
    | .Slash => wr .Divide st
    | _ => { st with panicked := true }

/-- named_variable from compiler.rs, the body of the variable rule. -/
def named_variable (source : List Char) (k : Call → CSt → CSt)
    (st : CSt) : CSt :=
  let (arg, st) := identifier_constant source st
  match arg with
  | .error msg => error_at st.ctx.pp.previous.line msg st
  | .ok arg =>
    let argByte := arg % 256
    if st.ctx.can_assign then
      let (b, st) := match_token .Equal source st
      if b then
        let st := k .expr st
        let st := { st with chunk := st.chunk.write .SetGlobal st.ctx.pp.previous.line }
        { st with chunk := st.chunk.write_u8 argByte st.ctx.pp.previous.line }
      else
        let st := { st with chunk := st.chunk.write .GetGlobal st.ctx.pp.previous.line }
        { st with chunk := st.chunk.write_u8 argByte st.ctx.pp.previous.line }
    else
      let st := { st with chunk := st.chunk.write .GetGlobal st.ctx.pp.previous.line }
      { st with chunk := st.chunk.write_u8 argByte st.ctx.pp.previous.line }

/-- string from compiler.rs: strip the quotes, intern, emit. -/
def string (source : List Char) (st : CSt) : CSt :=
  let lexeme :=
    strSlice source (st.ctx.pp.previous.start + 1)
      (st.ctx.pp.previous.start + st.ctx.pp.previous.length - 1)
  let st := { st with chunk := st.chunk.write .StringLiteral st.ctx.pp.previous.line }
  let (idx, ch) := st.chunk.add_or_retrieve_string_literal lexeme
  let st := { st with chunk := ch }
  match idx with
  | .ok idx =>
    let (res, ch) :=
      st.chunk.write_string_literal_id idx st.ctx.pp.previous.line
    let st := { st with chunk := ch }
    match res with
    | .ok _ => st
    | .error _ => { st with panicked := true }
  | .error msg => error_at st.ctx.pp.previous.line msg st

/-- number from compiler.rs: parse the lexeme, emit OP_CONSTANT. -/
def number (source : List Char) (st : CSt) : CSt :=
  let lexeme :=
    strSlice source st.ctx.pp.previous.start
      (st.ctx.pp.previous.start + st.ctx.pp.previous.length)
  let n := parse_f64 lexeme
  let st := { st with chunk := st.chunk.write .Constant st.ctx.pp.previous.line }
  let (idx, ch) := st.chunk.add_constant (Value.Number n)
  let st := { st with chunk := ch }
  match idx with
  | .ok idx =>
    { st with chunk := st.chunk.write_u8 idx st.ctx.pp.previous.line }
  | .error msg => error_at st.ctx.pp.previous.line msg st

/-- literal from compiler.rs; the catch-all panic is a Rust abort. -/
def literal (st : CSt) : CSt :=
  match st.ctx.pp.previous.token_type with
  | .True => { st with chunk := st.chunk.write .True st.ctx.pp.previous.line }
  | .False => { st with chunk := st.chunk.write .False st.ctx.pp.previous.line }
  | .Nil => { st with chunk := st.chunk.write .Nil st.ctx.pp.previous.line }
  | _ => { st with panicked := true }

/-- One fuel layer of the mutually recursive compiler procedures. A
state already marked panicked or out of fuel is frozen: the Rust
process would have aborted, so nothing further executes. -/
def step (source : List Char) : Nat → Call → CSt → CSt
  | 0, _, st => { st with out_of_fuel := true }
  | fuel + 1, c, st =>
    if st.panicked || st.out_of_fuel then st else
    match c with
    | .top => compile_loop source (step source fuel) st
    | .decl => declaration source (step source fuel) st
    | .varDecl => var_declaration source (step source fuel) st
    | .stmt => statement source (step source fuel) st
    | .printStmt => print_statement source (step source fuel) st
    | .exprStmt => expression_statement source (step source fuel) st
    | .expr => expression (step source fuel) st
    | .parsePrec p => parse_precedence source (step source fuel) p st
    | .infixLoop p => infix_loop source (step source fuel) p st
    | .fn .grouping => grouping source (step source fuel) st
    | .fn .unary => unary source (step source fuel) st
    | .fn .binary => binary source (step source fuel) st
    | .fn .variableF => named_variable source (step source fuel) st
    | .fn .string => string source st
    | .fn .number => number source st
    | .fn .literal => literal st

/-- The initial CompilerContext built at the top of compile. -/
def init_state : CSt :=
  { chunk := Chunk.new,
    ctx :=
      { sp := Scanner.ScannerPointer.new,
        pp := ⟨⟨.EOF, 0, 0, 0⟩, ⟨.EOF, 0, 0, 0⟩⟩,
        ps := ⟨false, false⟩,
        can_assign := false,
        line := 1 },
    out_of_fuel := false,
    panicked := false,
    cerrors := [] }

/-- compile from compiler.rs. The source function ends with Ok(chunk)
unconditionally, so the Except is ok on every path that terminates
without a Rust abort; the final state is returned alongside so the
recorded error flags stay observable. -/
def compile (fuel : Nat) (source : List Char) :
    Except Unit Chunk × CSt :=
  let st := init_state
  let st := advance source st
  let st := step source fuel .top st
  let st := consume .EOF "Expect end of expression." source st
  let st := { st with chunk := st.chunk.write .Return st.ctx.line }
  (.ok st.chunk, st)

end Compiler

namespace Vm

/-- One line written to stdout by the VM. A value printed by OP_PRINT
keeps its resolved content; a line of the opcode listing produced by
Chunk::print_codes keeps the decoded opcode whose display name it is. -/
inductive OutLine
  | num (n : Rat)
  | bool (b : Bool)
  | nil
  | str (s : List Char)
  | opcode (o : OpCode)
  deriving DecidableEq, Repr

/-- Chunk::print_codes from chunk.rs: decode and print every byte of
the code vector, operand bytes included; a byte outside 0..=19 makes
OpCode::from_u8 panic, hence none. -/
def print_codes (code : List Nat) : Option (List OutLine) :=
  code.mapM fun b => (OpCode.from_u8 b).map .opcode

/-- is_falsy from vm.rs. -/
def is_falsy : Value → Bool
  | .Nil => true
  | .Bool false => true
  | _ => false

/-- values_equal from vm.rs. Both String operands go through
Chunk::read_string_literal, which panics (none) on an id outside the
literal pool. The Number case compares exactly; IEEE NaN, the one
double on which Rust equality differs from exact equality, is never
produced by the programs considered here. -/
def values_equal (a b : Value) (chunk : Chunk) : Option Bool :=
  match a, b with
  | .Nil, .Nil => some true
  | .Bool x, .Bool y => some (x = y)
  | .Number x, .Number y => some (x = y)
  | .String x, .String y =>
    match chunk.read_string_literal x, chunk.read_string_literal y with
    | some xs, some ys => some (xs = ys)
    | _, _ => none
  | _, _ => some false

/-- InterpretResult from vm.rs, extended with the outcomes the source
can reach but does not name: a Rust process abort with its message, an
opcode whose match arm does not exist in run, and fuel exhaustion of
the embedding. -/
inductive InterpretResult
  | Ok
  | CompileError
  | RuntimeError
  | Panicked (msg : String)
  | Stuck (o : OpCode)
  | FuelOut
  deriving DecidableEq, Repr

/-- Env from vm.rs: the value stack and the dynamic string pool. The
out field accumulates the stdout lines the run writes. -/
structure Env where
  stack : List Value
  dynamic_strings : DynamicStringStorage
  out : List OutLine
  deriving DecidableEq, Repr

def Env.new : Env :=
  { stack := [], dynamic_strings := DynamicStringStorage.new, out := [] }

/-- print_value from vm.rs: literal ids resolve through the chunk pool,
dynamic ids through the VM pool; a failed resolution is a panic. -/
def print_value (v : Value) (chunk : Chunk) (env : Env) :
    Option OutLine :=
  match v with
  | .Nil => some .nil
  | .Bool b => some (.bool b)
  | .Number n => some (.num n)
  | .String id =>
    if stringIdIsLiteral id then
      (chunk.read_string_literal id).map .str
    else
      (env.dynamic_strings.get_string id).map .str

/-- The binary macro of vm.rs: pop b then a, convert both with
as_number (a Rust panic on a non-number), combine. -/
def binary_nums (env : Env) :
    Option (Rat × Rat × Env) :=
  match env.stack with
  | b :: a :: rest =>
    match a.as_number, b.as_number with
    | some x, some y => some (x, y, { env with stack := rest })
    | _, _ => none
  | _ => none

/-- The fetch-decode-dispatch loop of run from vm.rs, fuel-indexed.
The four opcodes Pop, GetGlobal, DefineGlobal and SetGlobal have no
arm in the source match; reaching one yields Stuck. -/
def run_loop (chunk : Chunk) : Nat → Nat → Env → InterpretResult × Env
  | 0, _, env => (.FuelOut, env)
  | fuel + 1, ip, env =>
    match chunk.byte ip with
    | none => (.Panicked "index out of range", env)
    | some instr =>
      match OpCode.from_u8 instr with
      | none => (.Panicked "Invalid opcode", env)
      | some opcode =>
        match opcode with
        | .Constant =>
          match chunk.read_constant (ip + 1) with
          | none => (.Panicked "index out of range", env)
          | some v =>
            run_loop chunk fuel (ip + 2) { env with stack := v :: env.stack }
        | .StringLiteral =>
          match chunk.byte (ip + 1) with
          | none => (.Panicked "index out of range", env)
          | some idx =>
            run_loop chunk fuel (ip + 2)
              { env with stack := Value.String idx :: env.stack }
        | .Nil =>
          run_loop chunk fuel (ip + 1)
            { env with stack := Value.Nil :: env.stack }
        | .True =>
          run_loop chunk fuel (ip + 1)
            { env with stack := Value.Bool true :: env.stack }
        | .False =>
          run_loop chunk fuel (ip + 1)
            { env with stack := Value.Bool false :: env.stack }
        | .Pop => (.Stuck .Pop, env)
        | .GetGlobal => (.Stuck .GetGlobal, env)
        | .DefineGlobal => (.Stuck .DefineGlobal, env)
        | .SetGlobal => (.Stuck .SetGlobal, env)
        | .Equal =>
          match env.stack with
          | b :: a :: rest =>
            match values_equal a b chunk with
            | none => (.Panicked "index out of range", env)
            | some r =>
              run_loop chunk fuel (ip + 1)
                { env with stack := Value.Bool r :: rest }
          | _ => (.Panicked "pop on empty stack", env)
        | .Greater =>
          match binary_nums env with
          | none => (.Panicked "Expected number value", env)
          | some (x, y, env) =>
            run_loop chunk fuel (ip + 1)
              { env with stack := Value.Bool (y < x) :: env.stack }
        | .Less =>
          match binary_nums env with
          | none => (.Panicked "Expected number value", env)
          | some (x, y, env) =>
            run_loop chunk fuel (ip + 1)
              { env with stack := Value.Bool (x < y) :: env.stack }
        | .Add =>
          match env.stack with
          | b :: a :: rest =>
            let env := { env with stack := rest }
            match a, b with
            | .Number x, .Number y =>
              run_loop chunk fuel (ip + 1)
                { env with stack := Value.Number (x + y) :: env.stack }
            | .String x, .String y =>
              match chunk.read_string_literal x,
                  chunk.read_string_literal y with
              | some xs, some ys =>
                let (res, dyn) := env.dynamic_strings.add_string (xs ++ ys)
                match res with
                | .error _ => (.Panicked "Too many dynamic strings", env)
                | .ok id =>
                  run_loop chunk fuel (ip + 1)
                    { env with
                      stack := Value.String id :: env.stack,
                      dynamic_strings := dyn }
              | _, _ => (.Panicked "index out of range", env)
            | _, _ =>
              (.RuntimeError, { env with stack := [] })
          | _ => (.Panicked "pop on empty stack", env)
        | .Subtract =>
          match binary_nums env with
          | none => (.Panicked "Expected number value", env)
          | some (x, y, env) =>
            run_loop chunk fuel (ip + 1)
              { env with stack := Value.Number (x - y) :: env.stack }
        | .Multiply =>
          match binary_nums env with
          | none => (.Panicked "Expected number value", env)
          | some (x, y, env) =>
            run_loop chunk fuel (ip + 1)
              { env with stack := Value.Number (x * y) :: env.stack }
        | .Divide =>
          match binary_nums env with
          | none => (.Panicked "Expected number value", env)
          | some (x, y, env) =>
            run_loop chunk fuel (ip + 1)
              { env with stack := Value.Number (x / y) :: env.stack }
        | .Not =>
          match env.stack with
          | v :: rest =>
            run_loop chunk fuel (ip + 1)
              { env with stack := Value.Bool (is_falsy v) :: rest }
          | _ => (.Panicked "pop on empty stack", env)
        | .Negate =>
          match env.stack with
          | [] => (.Panicked "peek on empty stack", env)
          | v :: rest =>
            if !v.is_number then
              (.RuntimeError, { env with stack := [] })
            else
              match v.as_number with
              | none => (.Panicked "Expected number value", env)
              | some x =>
                run_loop chunk fuel (ip + 1)
                  { env with stack := Value.Number (-x) :: rest }
        | .Print =>
          match env.stack with
          | v :: rest =>
            let env := { env with stack := rest }
            match print_value v chunk env with
            | none => (.Panicked "index out of range", env)
            | some line =>
              run_loop chunk fuel (ip + 1)
                { env with out := env.out ++ [line] }
          | _ => (.Panicked "pop on empty stack", env)
        | .Return =>
          match env.stack with
          | [] => (.Ok, env)
          | _ :: rest => (.Ok, { env with stack := rest })

/-- run from vm.rs: print_codes on the whole byte vector first, then
the dispatch loop from ip zero. -/
def run (fuel : Nat) (chunk : Chunk) (env : Env) :
    InterpretResult × Env :=
  match print_codes chunk.code with
  | none => (.Panicked "Invalid opcode", env)
  | some listing =>
    run_loop chunk fuel 0 { env with out := env.out ++ listing }

/-- interpret from vm.rs: compile, then run on success. The compile of
the source always ends in Ok, so the CompileError branch of the Rust
match is unreachable; a compiler-side Rust abort or fuel exhaustion is
surfaced directly. -/
def interpret (fuelC fuelV : Nat) (source : List Char) :
    InterpretResult × List OutLine :=
  let (res, cst) := Compiler.compile fuelC source
  if cst.panicked then (.Panicked "compiler panic", []) else
  if cst.out_of_fuel then (.FuelOut, []) else
  match res with
  | .error _ => (.CompileError, [])
  | .ok chunk =>
    let (r, env) := run fuelV chunk Env.new
    (r, env.out)

end Vm

/-! Facts about the literal pool, towards the dedup law (claim C7). -/

namespace StringLiteralStorage

/-- Slicing the appended buffer at the freshly written extent returns
exactly the appended string. -/
theorem strSlice_append_self (buf s : List Char) :
    strSlice (buf ++ s) buf.length (buf.length + s.length) = s := by
  unfold strSlice
  rw [List.drop_left, Nat.add_sub_cancel_left, List.take_length]

/-- Slicing an extent that lies inside the old buffer is unchanged by
appending to the buffer. -/
theorem strSlice_append_of_le (buf s : List Char) (a b : Nat)
    (h : b ≤ buf.length) :
    strSlice (buf ++ s) a b = strSlice buf a b := by
  unfold strSlice
  rw [List.drop_append_eq_append_drop, List.take_append_eq_append_take]
  have h2 : b - a - (buf.drop a).length = 0 := by
    rw [List.length_drop]
    omega
  rw [h2, List.take_zero, List.append_nil]

/-- A failed pool search means no entry slices to the key. -/
theorem exist_aux_none (buf s : List Char) :
    ∀ (data : List StringData) (i : Nat),
      exist_aux buf s data i = none →
      ∀ d ∈ data, strSlice buf d.start d.stop ≠ s := by
  intro data
  induction data with
  | nil => intro i _ d hd; cases hd
  | cons d0 rest ih =>
    intro i h d hd
    by_cases hc : strSlice buf d0.start d0.stop = s
    · simp [exist_aux, hc] at h
    · simp only [exist_aux, if_neg hc] at h
      rcases List.mem_cons.mp hd with hd | hd
      · subst hd; exact hc
      · exact ih (i + 1) h d hd

/-- Searching a pool whose earlier entries all miss reduces to testing
the appended last entry. -/
theorem exist_aux_append_singleton (buf s : List Char) (d0 : StringData) :
    ∀ (data : List StringData) (i : Nat),
      (∀ d ∈ data, strSlice buf d.start d.stop ≠ s) →
      exist_aux buf s (data ++ [d0]) i =
        if strSlice buf d0.start d0.stop = s then
          some (i + data.length)
        else none := by
  intro data
  induction data with
  | nil =>
    intro i _
    simp [exist_aux]
  | cons d rest ih =>
    intro i h
    have hd : strSlice buf d.start d.stop ≠ s := h d (by simp)
    simp only [List.cons_append, exist_aux, if_neg hd, List.append_eq]
    rw [ih (i + 1) (fun x hx => h x (by simp [hx]))]
    by_cases hc : strSlice buf d0.start d0.stop = s
    · simp only [if_pos hc]
      congr 1
      simp
      omega
    · simp only [if_neg hc]

end StringLiteralStorage

/-- Well-formedness of a literal pool as maintained by its two
constructors new and add_string: the next id counts the entries and
every recorded extent lies inside the byte buffer. -/
def SLWf (st : StringLiteralStorage) : Prop :=
  st.next_id = st.data.length ∧
  ∀ d ∈ st.data, d.stop ≤ st.string.length

instance (st : StringLiteralStorage) : Decidable (SLWf st) := by
  unfold SLWf
  exact instDecidableAnd

/-! The chunk length invariant (claim C8): every operation of the
embedded compiler appends to code and lines in lockstep. -/

/-- The invariant of chunk.rs: one line entry per code byte. -/
def ChunkInv (c : Chunk) : Prop :=
  c.code.length = c.lines.length

namespace Compiler

theorem chunkInv_write {c : Chunk} (op : OpCode) (l : Nat) :
    ChunkInv (c.write op l) ↔ ChunkInv c := by
  simp [ChunkInv, Chunk.write]

theorem chunkInv_write_u8 {c : Chunk} (v l : Nat) :
    ChunkInv (c.write_u8 v l) ↔ ChunkInv c := by
  simp [ChunkInv, Chunk.write_u8]

theorem chunkInv_write_slid {c : Chunk} (id : StringId) (l : Nat) :
    ChunkInv (c.write_string_literal_id id l).2 ↔ ChunkInv c := by
  unfold Chunk.write_string_literal_id
  split <;> simp [ChunkInv]

theorem chunkInv_add_constant {c : Chunk} (v : Value) :
    ChunkInv (c.add_constant v).2 ↔ ChunkInv c := by
  unfold Chunk.add_constant
  split <;> simp [ChunkInv]

theorem chunkInv_add_or_retrieve {c : Chunk} (s : List Char) :
    ChunkInv (c.add_or_retrieve_string_literal s).2 ↔ ChunkInv c := by
  unfold Chunk.add_or_retrieve_string_literal
  split
  · simp
  · simp [ChunkInv]

theorem error_at_chunk (l : Nat) (m : String) (st : CSt) :
    (error_at l m st).chunk = st.chunk := by
  unfold error_at
  split <;> rfl

theorem advance_loop_chunk (source : List Char) :
    ∀ (fuel : Nat) (st : CSt),
      (advance_loop source fuel st).chunk = st.chunk := by
  intro fuel
  induction fuel with
  | zero => intro st; rfl
  | succ n ih =>
    intro st
    unfold advance_loop
    split
    dsimp only
    split
    · rfl
    · rw [ih, error_at_chunk]

theorem advance_chunk (source : List Char) (st : CSt) :
    (advance source st).chunk = st.chunk := by
  unfold advance
  rw [advance_loop_chunk]

theorem match_token_chunk (tt : TokenType) (source : List Char)
    (st : CSt) : (match_token tt source st).2.chunk = st.chunk := by
  unfold match_token
  split
  · exact advance_chunk source st
  · rfl

theorem match_token_eq_chunk {tt : TokenType} {source : List Char}
    {st : CSt} {b : Bool} {st' : CSt}
    (h : match_token tt source st = (b, st')) :
    st'.chunk = st.chunk := by
  have h2 : (match_token tt source st).2 = st' := by rw [h]
  rw [← h2, match_token_chunk]

theorem consume_chunk (tt : TokenType) (m : String)
    (source : List Char) (st : CSt) :
    (consume tt m source st).chunk = st.chunk := by
  unfold consume
  split
  · exact advance_chunk source st
  · exact error_at_chunk _ _ _

theorem synchronize_chunk (source : List Char) :
    ∀ (fuel : Nat) (st : CSt),
      (synchronize source fuel st).chunk = st.chunk := by
  intro fuel
  induction fuel with
  | zero => intro st; rfl
  | succ n ih =>
    intro st
    unfold synchronize
    split
    · rfl
    · split
      · rfl
      · split <;> first
        | rfl
        | rw [ih, advance_chunk]

theorem identifier_constant_eq_chunkInv {source : List Char}
    {st : CSt} {r : Except String StringId} {st' : CSt}
    (h : identifier_constant source st = (r, st')) :
    (ChunkInv st'.chunk ↔ ChunkInv st.chunk) := by
  have h2 : (identifier_constant source st).2 = st' := by rw [h]
  rw [← h2]
  unfold identifier_constant
  dsimp only
  split
  · split <;>
      rw [chunkInv_write_slid, chunkInv_add_or_retrieve, chunkInv_write]
  · rw [chunkInv_add_or_retrieve, chunkInv_write]

theorem define_variable_chunkInv (g : StringId) (st : CSt) :
    ChunkInv (define_variable g st).chunk ↔ ChunkInv st.chunk := by
  unfold define_variable
  simp only
  rw [chunkInv_write_u8, chunkInv_write]

theorem identifier_constant_snd_chunkInv (source : List Char)
    (st : CSt) :
    ChunkInv ((identifier_constant source st).2).chunk ↔
      ChunkInv st.chunk :=
  identifier_constant_eq_chunkInv rfl

section InvLemmas

variable {source : List Char} {k : Call → CSt → CSt}

/-- Abbreviation for the induction hypothesis handed to each of the
per-procedure invariant lemmas: the recursive entry point k preserves
the chunk invariant. -/
def KInv (k : Call → CSt → CSt) : Prop :=
  ∀ c st, ChunkInv st.chunk → ChunkInv (k c st).chunk

theorem compile_loop_chunkInv (hk : KInv k) {st : CSt} (h : ChunkInv st.chunk) :
    ChunkInv (compile_loop source k st).chunk := by
  unfold compile_loop
  dsimp only
  split
  · rw [match_token_chunk]; exact h
  · exact hk _ _ (hk _ _ (by rw [match_token_chunk]; exact h))

theorem declaration_chunkInv (hk : KInv k) {st : CSt} (h : ChunkInv st.chunk) :
    ChunkInv (declaration source k st).chunk := by
  unfold declaration
  dsimp only
  split
  · rw [synchronize_chunk]
    split <;> exact hk _ _ h
  · split <;> exact hk _ _ h

theorem var_declaration_chunkInv (hk : KInv k) {st : CSt} (h : ChunkInv st.chunk) :
    ChunkInv (var_declaration source k st).chunk := by
  unfold var_declaration
  dsimp only
  split
  · rw [error_at_chunk, identifier_constant_snd_chunkInv,
      consume_chunk, advance_chunk]
    exact h
  · rw [define_variable_chunkInv, consume_chunk]
    split
    · exact hk _ _ (by
        rw [match_token_chunk, identifier_constant_snd_chunkInv,
          consume_chunk, advance_chunk]
        exact h)
    · dsimp only
      rw [chunkInv_write, match_token_chunk,
        identifier_constant_snd_chunkInv, consume_chunk, advance_chunk]
      exact h

theorem statement_chunkInv (hk : KInv k) {st : CSt} (h : ChunkInv st.chunk) :
    ChunkInv (statement source k st).chunk := by
  unfold statement
  dsimp only
  split <;> exact hk _ _ (by rw [match_token_chunk]; exact h)

theorem print_statement_chunkInv (hk : KInv k) {st : CSt} (h : ChunkInv st.chunk) :
    ChunkInv (print_statement source k st).chunk := by
  unfold print_statement
  dsimp only
  rw [chunkInv_write, consume_chunk]
  exact hk _ _ h

theorem expression_statement_chunkInv (hk : KInv k) {st : CSt}
    (h : ChunkInv st.chunk) :
    ChunkInv (expression_statement source k st).chunk := by
  unfold expression_statement
  dsimp only
  rw [chunkInv_write, consume_chunk]
  exact hk _ _ h

theorem expression_chunkInv (hk : KInv k) {st : CSt} (h : ChunkInv st.chunk) :
    ChunkInv (expression k st).chunk := by
  unfold expression
  exact hk _ _ h

theorem parse_precedence_chunkInv (hk : KInv k) {p : Precedence} {st : CSt}
    (h : ChunkInv st.chunk) :
    ChunkInv (parse_precedence source k p st).chunk := by
  unfold parse_precedence
  dsimp only
  split
  · rw [error_at_chunk, advance_chunk]; exact h
  · split
    · split
      · rw [error_at_chunk, match_token_chunk]
        refine hk _ _ (hk _ _ ?_)
        show ChunkInv (advance source st).chunk
        rw [advance_chunk]; exact h
      · rw [match_token_chunk]
        refine hk _ _ (hk _ _ ?_)
        show ChunkInv (advance source st).chunk
        rw [advance_chunk]; exact h
    · refine hk _ _ (hk _ _ ?_)
      show ChunkInv (advance source st).chunk
      rw [advance_chunk]; exact h

theorem infix_loop_chunkInv (hk : KInv k) {p : Precedence} {st : CSt}
    (h : ChunkInv st.chunk) :
    ChunkInv (infix_loop source k p st).chunk := by
  unfold infix_loop
  dsimp only
  split
  · split
    · show ChunkInv (advance source st).chunk
      rw [advance_chunk]; exact h
    · exact hk _ _ (hk _ _ (by rw [advance_chunk]; exact h))
  · exact h

theorem grouping_chunkInv (hk : KInv k) {st : CSt} (h : ChunkInv st.chunk) :
    ChunkInv (grouping source k st).chunk := by
  unfold grouping
  dsimp only
  rw [consume_chunk]
  exact hk _ _ h

theorem unary_chunkInv (hk : KInv k) {st : CSt} (h : ChunkInv st.chunk) :
    ChunkInv (unary source k st).chunk := by
  unfold unary
  dsimp only
  split <;> first
    | (dsimp only; rw [chunkInv_write]; exact hk _ _ h)
    | exact hk _ _ h

theorem binary_chunkInv (hk : KInv k) {st : CSt} (h : ChunkInv st.chunk) :
    ChunkInv (binary source k st).chunk := by
  unfold binary
  dsimp only
  split
  · exact h
  · split <;> first
      | (dsimp only; rw [chunkInv_write, chunkInv_write]; exact hk _ _ h)
      | (dsimp only; rw [chunkInv_write]; exact hk _ _ h)
      | exact hk _ _ h

theorem named_variable_chunkInv (hk : KInv k) {st : CSt} (h : ChunkInv st.chunk) :
    ChunkInv (named_variable source k st).chunk := by
  unfold named_variable
  dsimp only
  split
  · rw [error_at_chunk, identifier_constant_snd_chunkInv]; exact h
  · have hic : ChunkInv ((identifier_constant source st).2).chunk := by
      rw [identifier_constant_snd_chunkInv]; exact h
    split
    · split
      · dsimp only
        rw [chunkInv_write_u8, chunkInv_write]
        exact hk _ _ (by rw [match_token_chunk]; exact hic)
      · dsimp only
        rw [chunkInv_write_u8, chunkInv_write, match_token_chunk]
        exact hic
    · dsimp only
      rw [chunkInv_write_u8, chunkInv_write]
      exact hic

theorem string_chunkInv {st : CSt} (h : ChunkInv st.chunk) :
    ChunkInv (string source st).chunk := by
  unfold string
  dsimp only
  split
  · split
    · rw [chunkInv_write_slid, chunkInv_add_or_retrieve, chunkInv_write]
      exact h
    · show ChunkInv ((((st.chunk.write .StringLiteral
          st.ctx.pp.previous.line).add_or_retrieve_string_literal
            _).2.write_string_literal_id _ _).2)
      rw [chunkInv_write_slid, chunkInv_add_or_retrieve, chunkInv_write]
      exact h
  · rw [error_at_chunk]
    show ChunkInv (((st.chunk.write .StringLiteral
        st.ctx.pp.previous.line).add_or_retrieve_string_literal _).2)
    rw [chunkInv_add_or_retrieve, chunkInv_write]
    exact h

theorem number_chunkInv {st : CSt} (h : ChunkInv st.chunk) :
    ChunkInv (number source st).chunk := by
  unfold number
  dsimp only
  split
  · rw [chunkInv_write_u8, chunkInv_add_constant, chunkInv_write]
    exact h
  · rw [error_at_chunk]
    show ChunkInv (((st.chunk.write .Constant
        st.ctx.pp.previous.line).add_constant _).2)
    rw [chunkInv_add_constant, chunkInv_write]
    exact h

theorem literal_chunkInv {st : CSt} (h : ChunkInv st.chunk) :
    ChunkInv (literal st).chunk := by
  unfold literal
  split <;> first
    | (dsimp only; rw [chunkInv_write]; exact h)
    | exact h

end InvLemmas

/-- Every layer of the embedded compiler preserves the one line entry
per code byte invariant: each procedure appends to code and lines only
through Chunk::write, Chunk::write_u8 and Chunk::write_string_literal_id,
all of which push to both vectors in lockstep. -/
theorem step_chunkInv (source : List Char) :
    ∀ (fuel : Nat) (c : Call) (st : CSt),
      ChunkInv st.chunk → ChunkInv (step source fuel c st).chunk := by
  intro fuel
  induction fuel with
  | zero => intro c st h; exact h
  | succ n ih =>
    intro c st h
    cases c with
    | top =>
      rw [show step source (n+1) Call.top st =
          if st.panicked || st.out_of_fuel then st
          else compile_loop source (step source n) st from rfl]
      split
      · exact h
      · exact compile_loop_chunkInv ih h
    | decl =>
      rw [show step source (n+1) Call.decl st =
          if st.panicked || st.out_of_fuel then st
          else declaration source (step source n) st from rfl]
      split
      · exact h
      · exact declaration_chunkInv ih h
    | varDecl =>
      rw [show step source (n+1) Call.varDecl st =
          if st.panicked || st.out_of_fuel then st
          else var_declaration source (step source n) st from rfl]
      split
      · exact h
      · exact var_declaration_chunkInv ih h
    | stmt =>
      rw [show step source (n+1) Call.stmt st =
          if st.panicked || st.out_of_fuel then st
          else statement source (step source n) st from rfl]
      split
      · exact h
      · exact statement_chunkInv ih h
    | printStmt =>
      rw [show step source (n+1) Call.printStmt st =
          if st.panicked || st.out_of_fuel then st
          else print_statement source (step source n) st from rfl]
      split
      · exact h
      · exact print_statement_chunkInv ih h
    | exprStmt =>
      rw [show step source (n+1) Call.exprStmt st =
          if st.panicked || st.out_of_fuel then st
          else expression_statement source (step source n) st from rfl]
      split
      · exact h
      · exact expression_statement_chunkInv ih h
    | expr =>
      rw [show step source (n+1) Call.expr st =
          if st.panicked || st.out_of_fuel then st
          else expression (step source n) st from rfl]
      split
      · exact h
      · exact expression_chunkInv ih h
    | parsePrec p =>
      rw [show step source (n+1) (Call.parsePrec p) st =
          if st.panicked || st.out_of_fuel then st
          else parse_precedence source (step source n) p st from rfl]
      split
      · exact h
      · exact parse_precedence_chunkInv ih h
    | infixLoop p =>
      rw [show step source (n+1) (Call.infixLoop p) st =
          if st.panicked || st.out_of_fuel then st
          else infix_loop source (step source n) p st from rfl]
      split
      · exact h
      · exact infix_loop_chunkInv ih h
    | fn f =>
      cases f with
      | grouping =>
        rw [show step source (n+1) (Call.fn .grouping) st =
            if st.panicked || st.out_of_fuel then st
            else grouping source (step source n) st from rfl]
        split
        · exact h
        · exact grouping_chunkInv ih h
      | unary =>
        rw [show step source (n+1) (Call.fn .unary) st =
            if st.panicked || st.out_of_fuel then st
            else unary source (step source n) st from rfl]
        split
        · exact h
        · exact unary_chunkInv ih h
      | binary =>
        rw [show step source (n+1) (Call.fn .binary) st =
            if st.panicked || st.out_of_fuel then st
            else binary source (step source n) st from rfl]
        split
        · exact h
        · exact binary_chunkInv ih h
      | variableF =>
        rw [show step source (n+1) (Call.fn .variableF) st =
            if st.panicked || st.out_of_fuel then st
            else named_variable source (step source n) st from rfl]
        split
        · exact h
        · exact named_variable_chunkInv ih h
      | string =>
        rw [show step source (n+1) (Call.fn .string) st =
            if st.panicked || st.out_of_fuel then st
            else string source st from rfl]
        split
        · exact h
        · exact string_chunkInv h
      | number =>
        rw [show step source (n+1) (Call.fn .number) st =
            if st.panicked || st.out_of_fuel then st
            else number source st from rfl]
        split
        · exact h
        · exact number_chunkInv h
      | literal =>
        rw [show step source (n+1) (Call.fn .literal) st =
            if st.panicked || st.out_of_fuel then st
            else literal st from rfl]
        split
        · exact h
        · exact literal_chunkInv h

end Compiler

/-! Claim theorems. Each theorem settles one claim of the specification
against the embedded source. -/

/-- Claim C1. The claim states that compile returns CompileError (and
interpret returns CompileError) whenever a compile-time error was
recorded. The source contradicts it: error_at records the error in
had_error, but compile never consults the flag and ends with Ok(chunk)
on every path, so interpret runs the broken chunk. On the source text
consisting of a lone semicolon, the parser records the diagnostic
Expect expression via error_at, had_error is true, yet compile still
returns the chunk and interpret does not return CompileError (it gets
stuck on the emitted OP_POP instead). -/
theorem claim_C1_compile_error_not_reported :
    (Compiler.compile 200 ";".data).2.ctx.ps.had_error = true ∧
    (Compiler.compile 200 ";".data).2.cerrors =
      [(1, "Expect expression.")] ∧
    (Compiler.compile 200 ";".data).1 =
      Except.ok (Compiler.compile 200 ";".data).2.chunk ∧
    (Vm.interpret 200 200 ";".data).1 ≠ Vm.InterpretResult.CompileError :=
  ⟨by decide, by decide, rfl, by decide⟩

/-- Claim C2. The claim describes OP_DEFINE_GLOBAL storing into the
globals table and OP_GET_GLOBAL reading it back or raising Undefined
variable. The source has neither behaviour: Env in vm.rs holds only
the stack and the dynamic string pool, and the dispatch match in run
has no arm for DefineGlobal, GetGlobal, SetGlobal or Pop. Running the
program var a = 1; print a; reaches OP_DEFINE_GLOBAL and the VM has no
code for it, modelled as the Stuck outcome. -/
theorem claim_C2_define_global_has_no_handler :
    (Vm.interpret 200 200 "var a = 1; print a;".data).1 =
      Vm.InterpretResult.Stuck OpCode.DefineGlobal := by decide

/-- Claim C3. The claim states that OP_SUBTRACT, OP_MULTIPLY,
OP_DIVIDE, OP_GREATER and OP_LESS raise a runtime error on non-number
operands and interpret returns RuntimeError with no panic escaping.
The source contradicts it: the binary macro in vm.rs converts both
operands with Value::as_number, which panics on a non-number, and no
type test guards the call. Multiplying the string a by 2 aborts the
process with the as_number panic instead of returning RuntimeError. -/
theorem claim_C3_numeric_op_panics_on_non_number :
    (Vm.interpret 300 300 "\"a\" * 2;".data).1 =
      Vm.InterpretResult.Panicked "Expected number value" ∧
    (Vm.interpret 300 300 "\"a\" * 2;".data).1 ≠
      Vm.InterpretResult.RuntimeError := by
  exact ⟨by decide, by decide⟩

/-- Claim C4. The claim states that OP_ADD on two strings resolves
each operand through its backing pool, so a concatenation result (a
dynamic id of at least 255) can feed a later OP_ADD. The source
contradicts it: the Add arm of run resolves both operands with
chunk.read_string_literal, which indexes the literal pool whatever the
id is, so the dynamic operand produced by the first concatenation in
print (a + b) + c indexes position 255 of a three-entry pool and the
process aborts, where the claim promises the string abc. The first,
literal-literal addition does concatenate and intern dynamically: the
same program with a single addition prints the dynamic string ab. -/
theorem claim_C4_dynamic_add_operand_panics :
    (Vm.interpret 400 400 "print \"a\" + \"b\" + \"c\";".data).1 =
      Vm.InterpretResult.Panicked "index out of range" ∧
    (Vm.interpret 400 400 "print \"a\" + \"b\";".data).2.getLast? =
      some (Vm.OutLine.str "ab".data) := by
  exact ⟨by decide, by decide⟩

/-- Claim C5. The claim states that OP_EQUAL on two strings with equal
backing bytes pushes true whether each id is literal or dynamic. The
source contradicts the dynamic half: values_equal resolves both ids
with chunk.read_string_literal, so comparing the dynamic result of
a + b against the literal ab indexes the literal pool at 255 and the
process aborts, where the claim promises true. On two literal ids the
comparison does work bytewise: ab equals ab and a differs from b. -/
theorem claim_C5_equal_on_dynamic_string_panics :
    (Vm.interpret 400 400 "print \"a\" + \"b\" == \"ab\";".data).1 =
      Vm.InterpretResult.Panicked "index out of range" ∧
    (Vm.interpret 400 400 "print \"ab\" == \"ab\";".data).2.getLast? =
      some (Vm.OutLine.bool true) ∧
    (Vm.interpret 400 400 "print \"a\" == \"b\";".data).2.getLast? =
      some (Vm.OutLine.bool false) := by
  exact ⟨by decide, by decide, by decide⟩

/-- Claim C6. The claim states that print 1 + 2 * 3; succeeds with
stdout exactly the line 7. The source gets the arithmetic and the
result right, multiplication binding tighter than addition, and run
returns Ok; but run begins with an unconditional chunk.print_codes(),
which decodes every byte of the code vector, operand bytes included,
and prints one opcode name per byte to stdout whatever the debug flag
is. The stdout is therefore ten listing lines followed by the line 7,
not the line 7 alone. -/
theorem claim_C6_print_arithmetic_extra_stdout :
    (Vm.interpret 300 300 "print 1 + 2 * 3;".data).1 =
      Vm.InterpretResult.Ok ∧
    (Vm.interpret 300 300 "print 1 + 2 * 3;".data).2 =
      [Vm.OutLine.opcode .Constant, Vm.OutLine.opcode .Constant,
       Vm.OutLine.opcode .Constant, Vm.OutLine.opcode .StringLiteral,
       Vm.OutLine.opcode .Constant, Vm.OutLine.opcode .Nil,
       Vm.OutLine.opcode .Multiply, Vm.OutLine.opcode .Add,
       Vm.OutLine.opcode .Print, Vm.OutLine.opcode .Return,
       Vm.OutLine.num 7] ∧
    (Vm.interpret 300 300 "print 1 + 2 * 3;".data).2 ≠
      [Vm.OutLine.num 7] := by
  exact ⟨by decide, by decide, by decide⟩

/-- Claim C7. Interning a string already present in the literal pool
returns the id of the first interning and leaves the pool untouched:
add_or_retrieve_string_literal searches the pool by content first and
only appends on a miss, so a second interning of the same content
finds the entry the first one returned and changes nothing. Stated for
every well-formed pool state (SLWf holds for the empty pool and is
maintained by the interning operation itself). -/
theorem claim_C7_intern_dedup (c : Chunk) (s : List Char)
    (id : StringId) (c1 : Chunk)
    (hwf : SLWf c.string_literals)
    (h : c.add_or_retrieve_string_literal s = (.ok id, c1)) :
    c1.add_or_retrieve_string_literal s = (.ok id, c1) := by
  obtain ⟨hwf1, hwf2⟩ := hwf
  unfold Chunk.add_or_retrieve_string_literal at h ⊢
  rcases hex : c.string_literals.exist_string s with _ | j
  · rw [hex] at h
    dsimp only at h
    unfold StringLiteralStorage.add_string at h
    by_cases hmax : c.string_literals.is_max_string
    · rw [if_pos hmax] at h
      dsimp only at h
      rw [Prod.mk.injEq] at h
      exact absurd h.1 (by simp)
    · rw [if_neg hmax] at h
      dsimp only at h
      rw [Prod.mk.injEq] at h
      obtain ⟨h1, h2⟩ := h
      have hid : c.string_literals.next_id = id := by
        simpa using h1
      subst h2
      have hmiss :
          ∀ d ∈ c.string_literals.data,
            strSlice (c.string_literals.string ++ s) d.start d.stop ≠ s := by
        intro d hd
        rw [StringLiteralStorage.strSlice_append_of_le _ _ _ _ (hwf2 d hd)]
        exact StringLiteralStorage.exist_aux_none _ _ _ 0 hex d hd
      have hnew :
          strSlice (c.string_literals.string ++ s)
            c.string_literals.string.length
            (c.string_literals.string ++ s).length = s := by
        rw [List.length_append]
        exact StringLiteralStorage.strSlice_append_self _ _
      have hfind :
          StringLiteralStorage.exist_string
            { string := c.string_literals.string ++ s,
              data := c.string_literals.data ++
                [⟨c.string_literals.string.length,
                  (c.string_literals.string ++ s).length⟩],
              next_id := c.string_literals.next_id + 1 } s =
            some id := by
        unfold StringLiteralStorage.exist_string
        dsimp only
        rw [StringLiteralStorage.exist_aux_append_singleton _ _ _ _ 0 hmiss]
        rw [if_pos hnew]
        rw [Nat.zero_add, ← hwf1, hid]
      dsimp only
      rw [hfind]
  · rw [hex] at h
    dsimp only at h
    rw [Prod.mk.injEq] at h
    obtain ⟨h1, h2⟩ := h
    have hj : j = id := by simpa using h1
    subst h2
    subst hj
    rw [hex]

/-- Witness for claim C7: interning ab into a fresh chunk returns id
zero, and interning it again returns the same id with the chunk
unchanged. -/
theorem claim_C7_witness :
    SLWf Chunk.new.string_literals ∧
    ((Chunk.new.add_or_retrieve_string_literal "ab".data).2).add_or_retrieve_string_literal
        "ab".data =
      (Except.ok 0, (Chunk.new.add_or_retrieve_string_literal "ab".data).2) :=
  ⟨by decide,
    claim_C7_intern_dedup Chunk.new "ab".data 0 _ (by decide) rfl⟩

/-- Claim C8. For every chunk the compiler returns, the code vector
and the line vector have the same length: the initial chunk is empty,
every emitting operation pushes one byte and one line together, and
the final OP_RETURN write keeps the lockstep. -/
theorem claim_C8_code_lines_length (fuel : Nat) (source : List Char) :
    ((Compiler.compile fuel source).2).chunk.code.length =
      ((Compiler.compile fuel source).2).chunk.lines.length := by
  show ChunkInv ((Compiler.compile fuel source).2).chunk
  unfold Compiler.compile
  dsimp only
  rw [Compiler.chunkInv_write, Compiler.consume_chunk]
  refine Compiler.step_chunkInv source fuel .top _ ?_
  rw [Compiler.advance_chunk]
  rfl

/-- Claim C9. Decoding inverts encoding on all twenty opcodes, every
byte below twenty decodes to some opcode, and OpCode::from_u8 panics
(none in the embedding) on exactly the bytes of at least twenty. -/
theorem claim_C9_opcode_roundtrip :
    (∀ o : OpCode, OpCode.from_u8 o.toNat = some o) ∧
    (∀ b : Fin 20, (OpCode.from_u8 b.val).isSome = true) ∧
    (∀ b : Nat, OpCode.from_u8 (b + 20) = none) :=
  ⟨fun o => by cases o <;> rfl, by decide, fun b => rfl⟩

/-- Claim C10. Compiling the empty source yields a chunk whose code is
the single OP_RETURN byte, and running it returns Ok from the empty
stack: the Return arm pops a leftover value only when one exists. -/
theorem claim_C10_empty_source_ok :
    (Compiler.compile 100 ([] : List Char)).2.chunk.code =
      [OpCode.Return.toNat] ∧
    (Vm.interpret 100 100 ([] : List Char)).1 = Vm.InterpretResult.Ok ∧
    (Vm.run 100 (Compiler.compile 100 ([] : List Char)).2.chunk
        Vm.Env.new).2.stack = [] := by
  exact ⟨by decide, by decide, by decide⟩

end Clox
